import Mathlib

/-!
# Verification of the manuscript-dna sample registry data model

Shallow embedding of `src/trunk/dna/models.py`: the entity schemas
(Sheet, Session, Sample, Photo, Plate, Well), the derived display names,
the natural-key equality and hash overrides, and a registry state machine
whose write operations enforce the declared constraints (uniqueness,
enumerated domains, length limits, reference integrity).
-/

namespace ManuscriptDna

/-! ## Decimal rendering of non-negative integers (Python `str(n)`) -/

/-- The decimal digit character for `n < 10`, as Python renders integers. -/
def digitChar (n : Nat) : Char :=
  match n with
  | 0 => '0' | 1 => '1' | 2 => '2' | 3 => '3' | 4 => '4'
  | 5 => '5' | 6 => '6' | 7 => '7' | 8 => '8' | 9 => '9'
  | _ => '*'

/-- Fuel-indexed digit list of `n`, most significant first. -/
def natDigits (fuel n : Nat) : List Char :=
  match fuel with
  | 0 => []
  | fuel + 1 =>
    if n < 10 then [digitChar n]
    else natDigits fuel (n / 10) ++ [digitChar (n % 10)]

/-- Python `str` on a non-negative integer: decimal representation. -/
def natToString (n : Nat) : String := ⟨natDigits (n + 1) n⟩

/-- Numeric value of a digit character. -/
def charVal (c : Char) : Nat := c.toNat - 48

/-- Value of a digit list, most significant first. -/
def digitsVal (l : List Char) : Nat := l.foldl (fun a c => 10 * a + charVal c) 0

/-! ## Calendar dates (Python `datetime.date`) -/

/-- A calendar date, as used by the `DateField` of `Session`. -/
structure Date where
  year : Nat
  month : Nat
  day : Nat
deriving DecidableEq, Repr

/-- Left-pad a string with zeros to width `w` (Python `%0Nd` formatting). -/
def padZero (w : Nat) (s : String) : String :=
  ⟨List.replicate (w - s.length) '0' ++ s.data⟩

/-- Python `str(date)`: ISO format `YYYY-MM-DD` with zero padding. -/
def dateToString (d : Date) : String :=
  padZero 4 (natToString d.year) ++ "-" ++ padZero 2 (natToString d.month)
    ++ "-" ++ padZero 2 (natToString d.day)

/-- Python `u'-'.join(parts)`: concatenation with `-` between elements. -/
def joinHyphen : List String → String
  | [] => ""
  | [a] => a
  | a :: rest => a ++ "-" ++ joinHyphen rest

/-! ## Entities of `models.py` -/

/-- Source `Sheet`: a manuscript bifolia, identified by its unique `name`
(`CharField(max_length=32, unique=True)`), with free-text comments. -/
structure Sheet where
  name : String
  comments : Option String
deriving DecidableEq, Repr

/-- Source `Session`: a work session identified by its unique `date`
(`DateField(unique=True)`), with free-text comments. -/
structure Session where
  date : Date
  comments : Option String
deriving DecidableEq, Repr

/-- Source `Session._getname`: `unicode(self.date)`. -/
def Session.getname (s : Session) : String := dateToString s.date

/-- Source `Sample`: a DNA sample taken from a sheet at coordinates `(x, y)`
during a session.  `pk` is the storage-assigned primary key (the internal
serial number used in the display name). -/
structure Sample where
  sheet : Sheet
  x : Int
  y : Int
  session : Session
  comments : Option String
  pk : Nat
deriving DecidableEq, Repr

/-- Source `Sample._getname`: `u'-'.join((self.sheet.name, self.session.name, str(self.pk)))`. -/
def Sample.getname (s : Sample) : String :=
  joinHyphen [s.sheet.name, s.session.getname, natToString s.pk]

/-- Source `Photo`: associates a photograph (`file`) with a sample site
(`sample = ForeignKey(Sample)`). -/
structure Photo where
  sample : Sample
  file : String
deriving DecidableEq, Repr

/-- Source `Plate`: a plate of 96 sample wells, identified by its unique `name`
(`CharField(max_length=9, unique=True)`). -/
structure Plate where
  name : String
deriving DecidableEq, Repr

/-- Source `Well`: a sample well in a plate; `name` is the grid position,
`primer` the primer code, `sample` the stored sample. -/
structure Well where
  plate : Plate
  name : String
  sample : Sample
  primer : String
  comments : Option String
deriving DecidableEq, Repr

/-! ## Field and foreign-key declarations as schema-level data

These record, per model of `models.py`, the declared column names and the
foreign keys (field name, target model), in source order. -/

/-- Declared fields of `Sheet`. -/
def sheetFields : List String := ["name", "comments"]

/-- Declared fields of `Session`. -/
def sessionFields : List String := ["date", "comments"]

/-- Declared fields of `Sample`. -/
def sampleFields : List String := ["sheet", "x", "y", "session", "comments"]

/-- Declared fields of `Photo`. -/
def photoFields : List String := ["sample", "file"]

/-- Declared fields of `Plate`. -/
def plateFields : List String := ["name"]

/-- Declared fields of `Well`. -/
def wellFields : List String := ["plate", "name", "sample", "primer", "comments"]

/-- Foreign keys of `Sample`: `sheet = ForeignKey(Sheet)`, `session = ForeignKey(Session)`. -/
def sampleForeignKeys : List (String × String) := [("sheet", "Sheet"), ("session", "Session")]

/-- Foreign keys of `Photo`: `sample = ForeignKey(Sample)`. -/
def photoForeignKeys : List (String × String) := [("sample", "Sample")]

/-- Foreign keys of `Well`: `plate`, `sample`. -/
def wellForeignKeys : List (String × String) := [("plate", "Plate"), ("sample", "Sample")]

/-! ## Enumerated choices -/

/-- Row letters of the `WELL_CHOICES` loop. -/
def wellRows : List String := ["A", "B", "C", "D", "E", "F", "G", "H"]

/-- Column strings of the `WELL_CHOICES` loop. -/
def wellCols : List String :=
  ["01", "02", "03", "04", "05", "06", "07", "08", "09", "10", "11", "12"]

/-- Source `WELL_CHOICES`: `(i + j, i + j)` for each row letter `i` and column `j`. -/
def WELL_CHOICES : List (String × String) :=
  wellRows.flatMap (fun i => wellCols.map (fun j => (i ++ j, i ++ j)))

/-- The admissible well names (first components of `WELL_CHOICES`). -/
def wellChoiceNames : List String := WELL_CHOICES.map Prod.fst

/-- Source `PRIMER_CHOICES = (('01', '01'), ('04', '04'), ('DL', 'DL'))`. -/
def PRIMER_CHOICES : List (String × String) := [("01", "01"), ("04", "04"), ("DL", "DL")]

/-- The admissible primer values. -/
def primerNames : List String := PRIMER_CHOICES.map Prod.fst

/-! ## Natural-key equality and hashing (`__eq__`/`__hash__` overrides) -/

/-- Source `Sheet.__eq__`: `self.name == other.name`. -/
def sheetEq (a b : Sheet) : Bool := a.name == b.name

/-- Source `Session.__eq__`: `self.date == other.date`. -/
def sessionEq (a b : Session) : Bool := a.date == b.date

/-- Source `Plate.__eq__`: `self.name == other.name`. -/
def plateEq (a b : Plate) : Bool := a.name == b.name

/-- Source `Well.__eq__`: `self.plate == other.plate and self.name == other.name`,
where the plate comparison uses `Plate.__eq__`. -/
def wellEq (a b : Well) : Bool := plateEq a.plate b.plate && a.name == b.name

/-- Source `Sheet.__hash__`: `hash(self.name)`, for an arbitrary string hash `h`. -/
def sheetHash (h : String → Int) (s : Sheet) : Int := h s.name

/-- Source `Session.__hash__`: `hash(self.date)`, for an arbitrary date hash `h`. -/
def sessionHash (h : Date → Int) (s : Session) : Int := h s.date

/-- Source `Plate.__hash__`: `hash(self.name)`. -/
def plateHash (h : String → Int) (p : Plate) : Int := h p.name

/-- Source `Well.__hash__`: `hash(u'-'.join((self.plate.name, self.name)))`. -/
def wellHash (h : String → Int) (w : Well) : Int :=
  h (joinHyphen [w.plate.name, w.name])

/-! ## The sample registry as a state machine

The constraints below (uniqueness of natural keys, `max_length` bounds,
`choices` domains, reference integrity) are declared on the model fields in
`models.py`; their enforcement at write time is delegated to the external
persistence layer, so the write operations themselves are modelled from the
spec. -/

/-- Modelled from the spec: a `Primer` entity whose `name` is the identity
key, constrained to the enumerated set `{"01", "04", "DL"}`; `models.py`
declares no Primer model, only `PRIMER_CHOICES`. -/
structure Primer where
  name : String
deriving DecidableEq, Repr

/-- The stored records of the registry. -/
structure RegistryState where
  sheets : List Sheet
  sessions : List Session
  samples : List Sample
  plates : List Plate
  primers : List Primer
  wells : List Well
deriving DecidableEq, Repr

/-- The registry with no records. -/
def emptyState : RegistryState := ⟨[], [], [], [], [], []⟩

/-- Modelled from the spec: the error taxonomy of §7 — uniqueness-constraint
violation on a natural key, dangling foreign-key reference, and value out of
the declared domain (enumerated set or length limit). -/
inductive RegError where
  | uniqueness
  | missingRef
  | outOfDomain
deriving DecidableEq, Repr

/-- Modelled from the spec: create a `Sheet`, checking the declared
`max_length=32` bound and uniqueness of `name`; a failed write does not
commit. -/
def insertSheet (st : RegistryState) (s : Sheet) : Except RegError RegistryState :=
  if s.name.length > 32 then .error .outOfDomain
  else if st.sheets.any (fun t => t.name == s.name) then .error .uniqueness
  else .ok { st with sheets := s :: st.sheets }

/-- Modelled from the spec: create a `Session`, checking uniqueness of `date`. -/
def insertSession (st : RegistryState) (s : Session) : Except RegError RegistryState :=
  if st.sessions.any (fun t => t.date == s.date) then .error .uniqueness
  else .ok { st with sessions := s :: st.sessions }

/-- Modelled from the spec: create a `Sample`, checking that the referenced
sheet and session exist and that the assigned primary key is fresh. -/
def insertSample (st : RegistryState) (s : Sample) : Except RegError RegistryState :=
  if s.sheet ∉ st.sheets then .error .missingRef
  else if s.session ∉ st.sessions then .error .missingRef
  else if st.samples.any (fun t => t.pk == s.pk) then .error .uniqueness
  else .ok { st with samples := s :: st.samples }

/-- Modelled from the spec: create a `Plate`, checking the declared
`max_length=9` bound and uniqueness of `name`. -/
def insertPlate (st : RegistryState) (p : Plate) : Except RegError RegistryState :=
  if p.name.length > 9 then .error .outOfDomain
  else if st.plates.any (fun q => q.name == p.name) then .error .uniqueness
  else .ok { st with plates := p :: st.plates }

/-- Modelled from the spec: create a `Primer`, checking the enumerated
domain and uniqueness of `name`. -/
def insertPrimer (st : RegistryState) (p : Primer) : Except RegError RegistryState :=
  if p.name ∉ primerNames then .error .outOfDomain
  else if st.primers.any (fun q => q.name == p.name) then .error .uniqueness
  else .ok { st with primers := p :: st.primers }

/-- Modelled from the spec: create a `Well`, checking the `choices` domains
of `primer` and `name`, reference integrity of `plate` and `sample`, and the
`unique_together ('plate', 'name')` constraint. -/
def insertWell (st : RegistryState) (w : Well) : Except RegError RegistryState :=
  if w.primer ∉ primerNames then .error .outOfDomain
  else if w.name ∉ wellChoiceNames then .error .outOfDomain
  else if w.plate ∉ st.plates then .error .missingRef
  else if w.sample ∉ st.samples then .error .missingRef
  else if st.wells.any (fun v => v.plate == w.plate && v.name == w.name) then .error .uniqueness
  else .ok { st with wells := w :: st.wells }

/-- A manual data-entry operation: the creation of one record. -/
inductive Op where
  | addSheet (s : Sheet)
  | addSession (s : Session)
  | addSample (s : Sample)
  | addPlate (p : Plate)
  | addPrimer (p : Primer)
  | addWell (w : Well)
deriving DecidableEq, Repr

/-- A failed operation does not commit: keep the old state on error. -/
def commit (st : RegistryState) : Except RegError RegistryState → RegistryState
  | .ok st' => st'
  | .error _ => st

/-- One write against the registry. -/
def step (st : RegistryState) : Op → RegistryState
  | .addSheet s => commit st (insertSheet st s)
  | .addSession s => commit st (insertSession st s)
  | .addSample s => commit st (insertSample st s)
  | .addPlate p => commit st (insertPlate st p)
  | .addPrimer p => commit st (insertPrimer st p)
  | .addWell w => commit st (insertWell st w)

/-- Run a sequence of data-entry operations from the empty registry. -/
def runOps (ops : List Op) : RegistryState := ops.foldl step emptyState

/-- A registry state that can arise from some sequence of writes. -/
def Reachable (st : RegistryState) : Prop := ∃ ops, runOps ops = st

/-- The constraints on stored records, as declared in `models.py`. -/
def StateOK (st : RegistryState) : Prop :=
  (st.sheets.map Sheet.name).Nodup ∧
  (∀ s ∈ st.sheets, s.name.length ≤ 32) ∧
  (st.sessions.map Session.date).Nodup ∧
  (st.samples.map Sample.pk).Nodup ∧
  (st.plates.map Plate.name).Nodup ∧
  (∀ p ∈ st.plates, p.name.length ≤ 9) ∧
  (st.primers.map Primer.name).Nodup ∧
  (∀ p ∈ st.primers, p.name ∈ primerNames) ∧
  st.wells.Pairwise (fun v w => v.plate ≠ w.plate ∨ v.name ≠ w.name) ∧
  (∀ w ∈ st.wells, w.name ∈ wellChoiceNames ∧ w.primer ∈ primerNames)

/-! ## Lemmas about decimal rendering -/

theorem digitChar_ne_hyphen (n : Nat) : digitChar n ≠ '-' := by
  unfold digitChar
  split <;> decide

theorem charVal_digitChar {n : Nat} (h : n < 10) : charVal (digitChar n) = n := by
  interval_cases n <;> decide

theorem natDigits_fuel_irrel : ∀ f g n, n < f → n < g → natDigits f n = natDigits g n := by
  intro f
  induction f with
  | zero => intro g n h; omega
  | succ f ih =>
    intro g n hf hg
    cases g with
    | zero => omega
    | succ g =>
      simp only [natDigits]
      by_cases h10 : n < 10
      · simp [h10]
      · have hlt : n / 10 < n := Nat.div_lt_self (by omega) (by omega)
        simp only [if_neg h10]
        rw [ih g (n / 10) (by omega) (by omega)]

theorem digitsVal_append_digit (l : List Char) (c : Char) :
    digitsVal (l ++ [c]) = 10 * digitsVal l + charVal c := by
  simp [digitsVal, List.foldl_append]

theorem digitsVal_natDigits : ∀ f n, n < f → digitsVal (natDigits f n) = n := by
  intro f
  induction f with
  | zero => intro n h; omega
  | succ f ih =>
    intro n hf
    simp only [natDigits]
    by_cases h10 : n < 10
    · simp [if_pos h10, digitsVal, charVal_digitChar h10]
    · have hlt : n / 10 < n := Nat.div_lt_self (by omega) (by omega)
      rw [if_neg h10, digitsVal_append_digit, ih (n / 10) (by omega),
        charVal_digitChar (Nat.mod_lt n (by omega))]
      omega

theorem natToString_inj {m n : Nat} (h : natToString m = natToString n) : m = n := by
  have h2 : natDigits (m + 1) m = natDigits (n + 1) n := congrArg String.data h
  have hm := digitsVal_natDigits (m + 1) m (by omega)
  have hn := digitsVal_natDigits (n + 1) n (by omega)
  rw [h2, hn] at hm
  omega

theorem natDigits_no_hyphen : ∀ f n c, c ∈ natDigits f n → c ≠ '-' := by
  intro f
  induction f with
  | zero => intro n c hc; simp [natDigits] at hc
  | succ f ih =>
    intro n c hc
    simp only [natDigits] at hc
    by_cases h10 : n < 10
    · rw [if_pos h10] at hc
      simp only [List.mem_singleton] at hc
      subst hc
      exact digitChar_ne_hyphen n
    · rw [if_neg h10] at hc
      rcases List.mem_append.mp hc with hc | hc
      · exact ih _ _ hc
      · simp only [List.mem_singleton] at hc
        subst hc
        exact digitChar_ne_hyphen _

/-! ## Suffix extraction after the last hyphen -/

theorem takeWhile_stops (xs rest : List Char) (h : ∀ c ∈ xs, c ≠ '-') :
    (xs ++ '-' :: rest).takeWhile (fun c => c != '-') = xs := by
  induction xs with
  | nil => simp [List.takeWhile_cons]
  | cons a xs ih =>
    have ha : (a != '-') = true := by
      simpa using h a (by simp)
    simp only [List.cons_append, List.takeWhile_cons, ha, if_true]
    rw [ih (fun c hc => h c (by simp [hc]))]

theorem hyphen_suffix_inj {u v x y : List Char}
    (hx : ∀ c ∈ x, c ≠ '-') (hy : ∀ c ∈ y, c ≠ '-')
    (h : u ++ '-' :: x = v ++ '-' :: y) : x = y := by
  have h' : x.reverse ++ '-' :: u.reverse = y.reverse ++ '-' :: v.reverse := by
    have hr := congrArg List.reverse h
    simpa using hr
  have hx' : ∀ c ∈ x.reverse, c ≠ '-' := fun c hc => hx c (List.mem_reverse.mp hc)
  have hy' : ∀ c ∈ y.reverse, c ≠ '-' := fun c hc => hy c (List.mem_reverse.mp hc)
  have ht := congrArg (List.takeWhile (fun c => c != '-')) h'
  rw [takeWhile_stops _ _ hx', takeWhile_stops _ _ hy'] at ht
  exact List.reverse_injective ht

/-! ## The display name of a Sample -/

theorem Sample.getname_eq (s : Sample) :
    s.getname = s.sheet.name ++ "-" ++ s.session.getname ++ "-" ++ natToString s.pk := by
  apply String.ext
  simp [Sample.getname, joinHyphen, String.data_append]

theorem Sample.getname_data (s : Sample) :
    s.getname.data
      = (s.sheet.name ++ "-" ++ s.session.getname).data ++ '-' :: natDigits (s.pk + 1) s.pk := by
  have hd : ("-" : String).data = ['-'] := rfl
  rw [Sample.getname_eq]
  simp [String.data_append, hd, natToString]

/-! ## Preservation of the declared constraints -/

theorem stateOK_empty : StateOK emptyState := by
  simp [StateOK, emptyState]

theorem stateOK_step (st : RegistryState) (op : Op) (h : StateOK st) : StateOK (step st op) := by
  obtain ⟨h1, h2, h3, h4, h5, h6, h7, h8, h9, h10⟩ := h
  cases op with
  | addSheet s =>
    simp only [step, insertSheet]
    split
    · exact ⟨h1, h2, h3, h4, h5, h6, h7, h8, h9, h10⟩
    · split
      · exact ⟨h1, h2, h3, h4, h5, h6, h7, h8, h9, h10⟩
      · rename_i hlen hdup
        refine ⟨?_, ?_, h3, h4, h5, h6, h7, h8, h9, h10⟩
        · simp only [commit, List.map_cons, List.nodup_cons]
          refine ⟨?_, h1⟩
          intro hmem
          obtain ⟨t, ht, hname⟩ := List.mem_map.mp hmem
          exact hdup (List.any_eq_true.mpr ⟨t, ht, beq_iff_eq.mpr hname⟩)
        · intro t ht
          rcases List.mem_cons.mp ht with rfl | ht
          · omega
          · exact h2 t ht
  | addSession s =>
    simp only [step, insertSession]
    split
    · exact ⟨h1, h2, h3, h4, h5, h6, h7, h8, h9, h10⟩
    · rename_i hdup
      refine ⟨h1, h2, ?_, h4, h5, h6, h7, h8, h9, h10⟩
      simp only [commit, List.map_cons, List.nodup_cons]
      refine ⟨?_, h3⟩
      intro hmem
      obtain ⟨t, ht, hdate⟩ := List.mem_map.mp hmem
      exact hdup (List.any_eq_true.mpr ⟨t, ht, beq_iff_eq.mpr hdate⟩)
  | addSample s =>
    simp only [step, insertSample]
    split
    · exact ⟨h1, h2, h3, h4, h5, h6, h7, h8, h9, h10⟩
    · split
      · exact ⟨h1, h2, h3, h4, h5, h6, h7, h8, h9, h10⟩
      · split
        · exact ⟨h1, h2, h3, h4, h5, h6, h7, h8, h9, h10⟩
        · rename_i hsheet hsession hdup
          refine ⟨h1, h2, h3, ?_, h5, h6, h7, h8, h9, h10⟩
          simp only [commit, List.map_cons, List.nodup_cons]
          refine ⟨?_, h4⟩
          intro hmem
          obtain ⟨t, ht, hpk⟩ := List.mem_map.mp hmem
          exact hdup (List.any_eq_true.mpr ⟨t, ht, beq_iff_eq.mpr hpk⟩)
  | addPlate p =>
    simp only [step, insertPlate]
    split
    · exact ⟨h1, h2, h3, h4, h5, h6, h7, h8, h9, h10⟩
    · split
      · exact ⟨h1, h2, h3, h4, h5, h6, h7, h8, h9, h10⟩
      · rename_i hlen hdup
        refine ⟨h1, h2, h3, h4, ?_, ?_, h7, h8, h9, h10⟩
        · simp only [commit, List.map_cons, List.nodup_cons]
          refine ⟨?_, h5⟩
          intro hmem
          obtain ⟨t, ht, hname⟩ := List.mem_map.mp hmem
          exact hdup (List.any_eq_true.mpr ⟨t, ht, beq_iff_eq.mpr hname⟩)
        · intro t ht
          rcases List.mem_cons.mp ht with rfl | ht
          · omega
          · exact h6 t ht
  | addPrimer p =>
    simp only [step, insertPrimer]
    split
    · exact ⟨h1, h2, h3, h4, h5, h6, h7, h8, h9, h10⟩
    · split
      · exact ⟨h1, h2, h3, h4, h5, h6, h7, h8, h9, h10⟩
      · rename_i hdom hdup
        refine ⟨h1, h2, h3, h4, h5, h6, ?_, ?_, h9, h10⟩
        · simp only [commit, List.map_cons, List.nodup_cons]
          refine ⟨?_, h7⟩
          intro hmem
          obtain ⟨t, ht, hname⟩ := List.mem_map.mp hmem
          exact hdup (List.any_eq_true.mpr ⟨t, ht, beq_iff_eq.mpr hname⟩)
        · intro t ht
          rcases List.mem_cons.mp ht with rfl | ht
          · exact not_not.mp hdom
          · exact h8 t ht
  | addWell w =>
    simp only [step, insertWell]
    split
    · exact ⟨h1, h2, h3, h4, h5, h6, h7, h8, h9, h10⟩
    · split
      · exact ⟨h1, h2, h3, h4, h5, h6, h7, h8, h9, h10⟩
      · split
        · exact ⟨h1, h2, h3, h4, h5, h6, h7, h8, h9, h10⟩
        · split
          · exact ⟨h1, h2, h3, h4, h5, h6, h7, h8, h9, h10⟩
          · split
            · exact ⟨h1, h2, h3, h4, h5, h6, h7, h8, h9, h10⟩
            · rename_i hprimer hname hplate hsample hdup
              refine ⟨h1, h2, h3, h4, h5, h6, h7, h8, ?_, ?_⟩
              · simp only [commit]
                rw [List.pairwise_cons]
                refine ⟨?_, h9⟩
                intro v hv
                by_contra hcon
                push_neg at hcon
                obtain ⟨hp, hn⟩ := hcon
                exact hdup (List.any_eq_true.mpr
                  ⟨v, hv, by simp [hp.symm, hn.symm]⟩)
              · intro v hv
                rcases List.mem_cons.mp hv with rfl | hv
                · exact ⟨not_not.mp hname, not_not.mp hprimer⟩
                · exact h10 v hv

theorem stateOK_foldl : ∀ (ops : List Op) (st : RegistryState), StateOK st →
    StateOK (ops.foldl step st) := by
  intro ops
  induction ops with
  | nil => intro st h; exact h
  | cons op ops ih =>
    intro st h
    exact ih (step st op) (stateOK_step st op h)

theorem reachable_stateOK {st : RegistryState} (h : Reachable st) : StateOK st := by
  obtain ⟨ops, rfl⟩ := h
  exact stateOK_foldl ops emptyState stateOK_empty

/-! ## The spec's well-name pattern, and demonstration records -/

/-- Stated from the spec: the pattern `[A-H][01-12]` — a row letter `A`
through `H` followed by a zero-padded column number `01` through `12`. -/
def matchesWellPattern (s : String) : Bool :=
  match s.data with
  | [r, c1, c2] =>
    ('A' ≤ r && r ≤ 'H') && c1.isDigit && c2.isDigit &&
      (1 ≤ charVal c1 * 10 + charVal c2 && charVal c1 * 10 + charVal c2 ≤ 12)
  | _ => false

/-- Demonstration sheet, as in the spec's scenario. -/
def sheet1 : Sheet := ⟨"S1", none⟩

/-- Demonstration session dated 2024-01-01. -/
def session1 : Session := ⟨⟨2024, 1, 1⟩, none⟩

/-- Demonstration sample at `(10, -5)` with primary key 1. -/
def sample1 : Sample := ⟨sheet1, 10, -5, session1, none, 1⟩

/-- Demonstration plate named `P1`. -/
def plate1 : Plate := ⟨"P1"⟩

/-- Demonstration well `A01` on `plate1`. -/
def well1 : Well := ⟨plate1, "A01", sample1, "01", none⟩

/-- A demonstration data-entry run populating one record of each kind. -/
def demoOps : List Op :=
  [.addSheet sheet1, .addSession session1, .addSample sample1,
   .addPlate plate1, .addPrimer ⟨"01"⟩, .addWell well1]

/-- The registry state after the demonstration run. -/
def demoState : RegistryState := runOps demoOps

/-! ## The claims -/

/-- C1: For every stored Sample, the derived display name equals the owning
sheet's name, the owning session's date in display form, and the sample's
own sequence number, concatenated in that order and joined with hyphens; a
Sample on sheet "S1" in the session dated 2024-01-01 has display name
"S1-2024-01-01-<seq>"; and the name is stable — it is determined by the
stored record alone. -/
theorem sample_display_name_spec :
    (∀ s : Sample,
      s.getname = s.sheet.name ++ "-" ++ dateToString s.session.date
        ++ "-" ++ natToString s.pk) ∧
    (∀ (x y : Int) (c1 c2 c3 : Option String) (pk : Nat),
      (Sample.mk ⟨"S1", c1⟩ x y ⟨⟨2024, 1, 1⟩, c2⟩ c3 pk).getname
        = "S1-2024-01-01-" ++ natToString pk) ∧
    (∀ s t : Sample, s = t → s.getname = t.getname) := by
  refine ⟨fun s => Sample.getname_eq s, ?_, fun s t h => by rw [h]⟩
  intro x y c1 c2 c3 pk
  rw [Sample.getname_eq]
  show "S1" ++ "-" ++ dateToString ⟨2024, 1, 1⟩ ++ "-" ++ natToString pk
    = "S1-2024-01-01-" ++ natToString pk
  exact congrArg (fun t => t ++ natToString pk) (by decide)

/-- C1 witness: the scenario Sample with sequence number 1 has display name
"S1-2024-01-01-1", and the name is stable on it. -/
theorem sample_display_name_spec_witness :
    Sample.getname sample1 = "S1-2024-01-01-1" ∧
    Sample.getname sample1 = Sample.getname sample1 :=
  ⟨(sample_display_name_spec.2.1 10 (-5) none none none 1).trans (by decide),
    sample_display_name_spec.2.2 sample1 sample1 rfl⟩

/-- C2 counterexample: contrary to the claim, `Photo` declares no reference
to `Sheet` (its only foreign key targets `Sample`), and `Sample` declares no
reference to `Photo`. -/
theorem photo_sheet_reference_counterexample :
    "Sheet" ∉ photoForeignKeys.map Prod.snd ∧
    "Photo" ∉ sampleForeignKeys.map Prod.snd ∧
    "photo" ∉ sampleFields := by
  decide

/-- C2 (amended): every Photo record belongs to exactly one Sample (Photo
carries a reference to a Sample, not to a Sheet); a Sample belongs to one
Sheet and one Session and carries no Photo reference. -/
theorem photo_sample_reference :
    photoForeignKeys.map Prod.snd = ["Sample"] ∧
    sampleForeignKeys.map Prod.snd = ["Sheet", "Session"] ∧
    (∀ p : Photo, ∃! s : Sample, p.sample = s) ∧
    (∀ s : Sample, ∃! sh : Sheet, s.sheet = sh) ∧
    (∀ s : Sample, ∃! ss : Session, s.session = ss) := by
  refine ⟨rfl, rfl, ?_, ?_, ?_⟩
  · exact fun p => ⟨p.sample, rfl, fun y hy => hy.symm⟩
  · exact fun s => ⟨s.sheet, rfl, fun y hy => hy.symm⟩
  · exact fun s => ⟨s.session, rfl, fun y hy => hy.symm⟩

/-- C3: Sample display names are unique by construction — any two Samples
with distinct internal sequence numbers have distinct display names,
whatever their sheet names and session dates. -/
theorem sample_display_name_unique (s1 s2 : Sample) (h : s1.pk ≠ s2.pk) :
    Sample.getname s1 ≠ Sample.getname s2 := by
  intro he
  apply h
  have hd := congrArg String.data he
  rw [Sample.getname_data, Sample.getname_data] at hd
  have hsuf := hyphen_suffix_inj
    (fun c hc => natDigits_no_hyphen _ _ c hc)
    (fun c hc => natDigits_no_hyphen _ _ c hc) hd
  have h1 := digitsVal_natDigits (s1.pk + 1) s1.pk (by omega)
  have h2 := digitsVal_natDigits (s2.pk + 1) s2.pk (by omega)
  rw [hsuf, h2] at h1
  exact h1.symm

/-- C3 witness: two concrete Samples with different sequence numbers but
even the same sheet and session have different display names. -/
theorem sample_display_name_unique_witness :
    Sample.getname ⟨⟨"S1", none⟩, 10, -5, ⟨⟨2024, 1, 1⟩, none⟩, none, 1⟩
      ≠ Sample.getname ⟨⟨"S1", none⟩, 10, -5, ⟨⟨2024, 1, 1⟩, none⟩, none, 2⟩ :=
  sample_display_name_unique _ _ (by decide)

/-- C4: every stored Well's name matches the pattern `[A-H][01-12]`, and the
set of admissible well names has exactly 96 elements. -/
theorem well_names_grid :
    (∀ st : RegistryState, Reachable st →
      ∀ w ∈ st.wells, matchesWellPattern w.name = true) ∧
    wellChoiceNames.Nodup ∧ wellChoiceNames.length = 96 ∧
    (∀ n ∈ wellChoiceNames, matchesWellPattern n = true) := by
  have hpat : ∀ n ∈ wellChoiceNames, matchesWellPattern n = true := by decide
  refine ⟨?_, by decide, by decide, hpat⟩
  intro st hst w hw
  exact hpat _ ((reachable_stateOK hst).2.2.2.2.2.2.2.2.2 w hw).1

/-- C4 witness: in the demonstration registry the stored well's name `A01`
matches the pattern. -/
theorem well_names_grid_witness : matchesWellPattern well1.name = true :=
  well_names_grid.1 demoState ⟨demoOps, rfl⟩ well1 (by decide)

/-- C5: every stored Well's primer belongs to `{"01", "04", "DL"}`, and an
attempted Well with primer "99" is rejected as out-of-domain (the write
does not commit). -/
theorem well_primer_domain (st : RegistryState) (hst : Reachable st) :
    (∀ w ∈ st.wells, w.primer = "01" ∨ w.primer = "04" ∨ w.primer = "DL") ∧
    (∀ w : Well, w.primer = "99" →
      insertWell st w = Except.error RegError.outOfDomain) := by
  constructor
  · intro w hw
    have hmem := ((reachable_stateOK hst).2.2.2.2.2.2.2.2.2 w hw).2
    simpa [primerNames, PRIMER_CHOICES] using hmem
  · intro w hp
    have hnot : w.primer ∉ primerNames := by rw [hp]; decide
    simp [insertWell, hnot]

/-- C5 witness: in the demonstration registry the stored well has primer
"01", and a Well write with primer "99" is rejected as out-of-domain. -/
theorem well_primer_domain_witness :
    insertWell demoState ⟨plate1, "A01", sample1, "99", none⟩
      = Except.error RegError.outOfDomain :=
  (well_primer_domain demoState ⟨demoOps, rfl⟩).2 _ rfl

/-- C6: natural keys are unique at write time — no two stored Sheets share
a name, no two Sessions share a date, no two Plates share a name, Primer
names are likewise unique — and a second Plate with an existing name is
rejected with a uniqueness error. -/
theorem natural_key_uniqueness (st : RegistryState) (hst : Reachable st) :
    (st.sheets.map Sheet.name).Nodup ∧
    (st.sessions.map Session.date).Nodup ∧
    (st.plates.map Plate.name).Nodup ∧
    (st.primers.map Primer.name).Nodup ∧
    (∀ p : Plate, p.name.length ≤ 9 → (∃ q ∈ st.plates, q.name = p.name) →
      insertPlate st p = Except.error RegError.uniqueness) := by
  obtain ⟨h1, h2, h3, h4, h5, h6, h7, h8, h9, h10⟩ := reachable_stateOK hst
  refine ⟨h1, h3, h5, h7, ?_⟩
  intro p hlen hex
  obtain ⟨q, hq, hname⟩ := hex
  have hgt : ¬ p.name.length > 9 := by omega
  have hany : (st.plates.any fun t => t.name == p.name) = true :=
    List.any_eq_true.mpr ⟨q, hq, beq_iff_eq.mpr hname⟩
  simp [insertPlate, hgt, hany]

/-- C6 witness: creating a second Plate named "P1" in the demonstration
registry is rejected with a uniqueness error. -/
theorem natural_key_uniqueness_witness :
    insertPlate demoState ⟨"P1"⟩ = Except.error RegError.uniqueness :=
  (natural_key_uniqueness demoState ⟨demoOps, rfl⟩).2.2.2.2 ⟨"P1"⟩
    (by decide) ⟨plate1, by decide, rfl⟩

/-- C7: for all stored Well records, the composite key (plate, name) is
unique — no two Wells reference the same Plate and carry the same name. -/
theorem well_composite_key_unique (st : RegistryState) (hst : Reachable st) :
    st.wells.Pairwise (fun v w => ¬ (v.plate = w.plate ∧ v.name = w.name)) := by
  have h9 := (reachable_stateOK hst).2.2.2.2.2.2.2.2.1
  exact h9.imp (fun hab => by tauto)

/-- C7 witness: the property instantiated at the demonstration registry. -/
theorem well_composite_key_unique_witness :
    demoState.wells.Pairwise (fun v w => ¬ (v.plate = w.plate ∧ v.name = w.name)) :=
  well_composite_key_unique demoState ⟨demoOps, rfl⟩

/-- C8: equality for Sheet, Session, Plate and Well is value equality on
the natural key: names for Sheets and Plates, dates for Sessions, and the
plate/name pair for Wells; all other attributes are ignored. -/
theorem natural_key_equality :
    (∀ a b : Sheet, sheetEq a b = true ↔ a.name = b.name) ∧
    (∀ a b : Session, sessionEq a b = true ↔ a.date = b.date) ∧
    (∀ a b : Plate, plateEq a b = true ↔ a.name = b.name) ∧
    (∀ a b : Well, wellEq a b = true ↔ plateEq a.plate b.plate = true ∧ a.name = b.name) ∧
    (∀ a b : Well, wellEq a b = true ↔ a.plate.name = b.plate.name ∧ a.name = b.name) := by
  refine ⟨?_, ?_, ?_, ?_, ?_⟩ <;>
    intro a b <;> simp [sheetEq, sessionEq, plateEq, wellEq]

/-- C9: a stored Sheet's name is at most 32 characters and a stored Plate's
name at most 9; writes exceeding these limits are not accepted. -/
theorem name_length_limits (st : RegistryState) (hst : Reachable st) :
    (∀ s ∈ st.sheets, s.name.length ≤ 32) ∧
    (∀ p ∈ st.plates, p.name.length ≤ 9) ∧
    (∀ s : Sheet, s.name.length > 32 →
      insertSheet st s = Except.error RegError.outOfDomain) ∧
    (∀ p : Plate, p.name.length > 9 →
      insertPlate st p = Except.error RegError.outOfDomain) := by
  obtain ⟨h1, h2, h3, h4, h5, h6, h7, h8, h9, h10⟩ := reachable_stateOK hst
  refine ⟨h2, h6, ?_, ?_⟩
  · intro s hs
    rw [insertSheet, if_pos hs]
  · intro p hp
    rw [insertPlate, if_pos hp]

/-- C9 witness: a 33-character Sheet name and a 10-character Plate name are
both rejected in the demonstration registry. -/
theorem name_length_limits_witness :
    insertSheet demoState ⟨"ABCDEFGHIJKLMNOPQRSTUVWXYZ0123456", none⟩
      = Except.error RegError.outOfDomain ∧
    insertPlate demoState ⟨"ABCDEFGHIJ"⟩ = Except.error RegError.outOfDomain :=
  ⟨(name_length_limits demoState ⟨demoOps, rfl⟩).2.2.1 _ (by decide),
    (name_length_limits demoState ⟨demoOps, rfl⟩).2.2.2 _ (by decide)⟩

/-- C10: hashing is consistent with the natural-key equality — records equal
under the overridden equality have equal hashes, for any underlying hash of
strings and dates (Sheet and Plate hash the name, Session the date, Well the
plate-name/well-name pair joined by a hyphen). -/
theorem hash_consistent_with_eq :
    (∀ (h : String → Int) (a b : Sheet),
      sheetEq a b = true → sheetHash h a = sheetHash h b) ∧
    (∀ (h : Date → Int) (a b : Session),
      sessionEq a b = true → sessionHash h a = sessionHash h b) ∧
    (∀ (h : String → Int) (a b : Plate),
      plateEq a b = true → plateHash h a = plateHash h b) ∧
    (∀ (h : String → Int) (a b : Well),
      wellEq a b = true → wellHash h a = wellHash h b) := by
  refine ⟨?_, ?_, ?_, ?_⟩
  · intro h a b hab
    simp only [sheetEq, beq_iff_eq] at hab
    simp [sheetHash, hab]
  · intro h a b hab
    simp only [sessionEq, beq_iff_eq] at hab
    simp [sessionHash, hab]
  · intro h a b hab
    simp only [plateEq, beq_iff_eq] at hab
    simp [plateHash, hab]
  · intro h a b hab
    simp only [wellEq, plateEq, Bool.and_eq_true, beq_iff_eq] at hab
    obtain ⟨hp, hn⟩ := hab
    simp [wellHash, joinHyphen, hp, hn]

/-- C10 witness: two Sheets equal up to comments hash alike under a concrete
hash, and likewise two Wells equal on the plate/name pair. -/
theorem hash_consistent_with_eq_witness :
    sheetHash (fun s => (s.length : Int)) ⟨"S1", none⟩
      = sheetHash (fun s => (s.length : Int)) ⟨"S1", some "x"⟩ ∧
    wellHash (fun s => (s.length : Int)) ⟨plate1, "A01", sample1, "01", none⟩
      = wellHash (fun s => (s.length : Int)) ⟨plate1, "A01", sample1, "DL", some "y"⟩ :=
  ⟨hash_consistent_with_eq.1 _ _ _ (by decide),
    hash_consistent_with_eq.2.2.2 _ _ _ (by decide)⟩

end ManuscriptDna
